import Mathlib

/-!
Verification of the juniper GraphQL library core against its specification.

The development shallowly embeds the relevant Rust sources:
 - `src/types/containers.rs` (input coercion for `Option<T>` and `Vec<T>`),
 - `src/validation/rules/known_type_names.rs` (the KnownTypeNames rule),
 - `src/macros/interface.rs` (concrete-type resolution for interfaces),
 - `src/integrations/iron_handlers.rs` (the HTTP handler),
 - `src/executor_tests/enums.rs` (the enum coercion fixtures).
Parts of the engine that are not under `src/` (parser, validator driver,
executor, the enum macro) are modelled from the specification; each such
definition carries a doc comment starting with `Modelled from the spec:`.
-/

set_option autoImplicit false

namespace Juniper

/-- A source position `(index, line, column)`, all zero-based (spec §3, §6). -/
structure SourcePosition where
  index : Nat
  line : Nat
  col : Nat
deriving DecidableEq, Repr

/-- `Spanning<T>` pairs a value with a start and end position (spec §3). -/
structure Spanning (α : Type) where
  start : SourcePosition
  stop : SourcePosition
  item : α
deriving DecidableEq, Repr

/-- Modelled from the spec: `Spanning::unlocated` attaches the origin position
to a value constructed outside parsing (used by `InputValue::list`). -/
def Spanning.unlocated {α : Type} (x : α) : Spanning α :=
  ⟨⟨0, 0, 0⟩, ⟨0, 0, 0⟩, x⟩

/-- The `InputValue` AST node (spec §3).  The `f64` payload of the `Float`
variant is represented by its 64-bit pattern as a `Nat`; no claim in this
development computes with floats. -/
inductive InputValue : Type where
  | null
  | int (n : Int)
  | float (bits : Nat)
  | string (s : String)
  | boolean (b : Bool)
  | enum (s : String)
  | var (name : String)
  | list (ls : List (Spanning InputValue))
  | object (fields : List (Spanning String × Spanning InputValue))

/-- Modelled from the spec: the `InputValue::list` helper wraps the elements
as unlocated spanned items (used by `ToInputValue for Vec<T>`). -/
def InputValue.mkList (xs : List InputValue) : InputValue :=
  .list (xs.map Spanning.unlocated)

/-- Whether an `InputValue` is the `List` variant. -/
def InputValue.isList : InputValue → Bool
  | .list _ => true
  | _ => false

/-- A type implementing the `FromInputValue` and `ToInputValue` capabilities:
`fromInputValue` embeds `FromInputValue::from` and `toInputValue` embeds
`ToInputValue::to`. -/
structure CoerceInst (α : Type) where
  fromInputValue : InputValue → Option α
  toInputValue : α → InputValue

/-- `FromInputValue for Option<T>` (containers.rs lines 25-35): `Null` coerces
to `None`; any other input coerces through `T`. -/
def optionFromInputValue {α : Type} (T : CoerceInst α) (v : InputValue) : Option (Option α) :=
  match v with
  | .null => some none
  | v =>
    match T.fromInputValue v with
    | some x => some (some x)
    | none => none

/-- `ToInputValue for Option<T>` (containers.rs lines 37-44). -/
def optionToInputValue {α : Type} (T : CoerceInst α) (x : Option α) : InputValue :=
  match x with
  | some v => T.toInputValue v
  | none => .null

/-- The coercion pair for `Option<T>` (containers.rs lines 25-44). -/
def optionInst {α : Type} (T : CoerceInst α) : CoerceInst (Option α) where
  fromInputValue := optionFromInputValue T
  toInputValue := optionToInputValue T

/-- `FromInputValue for Vec<T>` (containers.rs lines 69-90): a `List` input is
coerced elementwise (`filter_map` + length comparison); any other input is
coerced through `T` and wrapped in a singleton vector. -/
def vecFromInputValue {α : Type} (T : CoerceInst α) (v : InputValue) : Option (List α) :=
  match v with
  | .list ls =>
    let w := ls.filterMap (fun i => T.fromInputValue i.item)
    if w.length = ls.length then some w else none
  | other =>
    match T.fromInputValue other with
    | some e => some [e]
    | none => none

/-- `ToInputValue for Vec<T>` (containers.rs lines 92-96). -/
def vecToInputValue {α : Type} (T : CoerceInst α) (xs : List α) : InputValue :=
  InputValue.mkList (xs.map (fun v => T.toInputValue v))

/-- The coercion pair for `Vec<T>` (containers.rs lines 69-96). -/
def vecInst {α : Type} (T : CoerceInst α) : CoerceInst (List α) where
  fromInputValue := vecFromInputValue T
  toInputValue := vecToInputValue T

/-- Modelled from the spec: the built-in `Int` scalar coercion (spec §4.3,
"`Int` rejects floats/strings"); serialisation emits an `Int` token. -/
def intInst : CoerceInst Int where
  fromInputValue
    | .int n => some n
    | _ => none
  toInputValue n := .int n

/-- The round-trip contract on a coercion pair: re-coercing a serialised
value yields the value back, and serialising a value coerced from a
non-`Null` input never yields `Null`. -/
def RoundTrips {α : Type} (T : CoerceInst α) : Prop :=
  ∀ v x, T.fromInputValue v = some x →
    T.fromInputValue (T.toInputValue x) = some x ∧
    (v ≠ .null → T.toInputValue x ≠ .null)

theorem intInst_roundTrips : RoundTrips intInst := by
  intro v x h
  cases v <;> simp_all [intInst]

theorem optionFrom_ne_null {α : Type} (T : CoerceInst α) (v : InputValue) (hv : v ≠ .null) :
    optionFromInputValue T v = (T.fromInputValue v).map some := by
  cases hf : T.fromInputValue v <;> cases v <;> simp_all [optionFromInputValue]

theorem vecFrom_not_list {α : Type} (T : CoerceInst α) (v : InputValue) (hv : v.isList = false) :
    vecFromInputValue T v = (T.fromInputValue v).map (fun x => [x]) := by
  cases hf : T.fromInputValue v <;> cases v <;> simp_all [vecFromInputValue, InputValue.isList]

/-- Elementwise coercion of a list, failing when any single element fails.
`FromInputValue for Vec<T>` is proved equal to it on `List` inputs below. -/
def mapMopt {α β : Type} (f : α → Option β) : List α → Option (List β)
  | [] => some []
  | a :: as =>
    match f a with
    | none => none
    | some b => (mapMopt f as).map (fun bs => b :: bs)

theorem vecFrom_list_eq {α : Type} (T : CoerceInst α) (ls : List (Spanning InputValue)) :
    vecFromInputValue T (.list ls) = mapMopt (fun i => T.fromInputValue i.item) ls := by
  induction ls with
  | nil => rfl
  | cons i rest ih =>
    simp only [vecFromInputValue] at ih ⊢
    simp only [mapMopt, List.filterMap_cons]
    cases hf : T.fromInputValue i.item with
    | none =>
      have hle := List.length_filterMap_le (fun i => T.fromInputValue i.item) rest
      simp only [List.length_cons]
      rw [if_neg (by omega)]
    | some b =>
      simp only [List.length_cons, Nat.add_right_cancel_iff]
      rw [← ih]
      by_cases hlen : (rest.filterMap (fun i => T.fromInputValue i.item)).length = rest.length
      · rw [if_pos hlen, if_pos hlen]
        rfl
      · rw [if_neg hlen, if_neg hlen]
        rfl

theorem mapMopt_eq_some_iff {α β : Type} (f : α → Option β) (as : List α) (bs : List β) :
    mapMopt f as = some bs ↔ List.Forall₂ (fun a b => f a = some b) as bs := by
  induction as generalizing bs with
  | nil =>
    cases bs <;> simp [mapMopt]
  | cons a as ih =>
    cases bs with
    | nil =>
      simp only [mapMopt]
      cases hf : f a with
      | none => simp
      | some b' => cases hm : mapMopt f as <;> simp
    | cons b bs =>
      rw [List.forall₂_cons, ← ih]
      simp only [mapMopt]
      cases hf : f a with
      | none => simp
      | some b' => cases hm : mapMopt f as <;> simp

theorem forall2_exists_of_mem_right {α β : Type} {r : α → β → Prop} {as : List α} {bs : List β}
    (h : List.Forall₂ r as bs) : ∀ b ∈ bs, ∃ a ∈ as, r a b := by
  induction h with
  | nil => intro b hb; cases hb
  | cons hr _ ih =>
    intro b hb
    rcases List.mem_cons.1 hb with hb | hb
    · subst hb
      exact ⟨_, List.mem_cons_self _ _, hr⟩
    · obtain ⟨a, ha, hra⟩ := ih b hb
      exact ⟨a, List.mem_cons_of_mem _ ha, hra⟩

theorem mapMopt_eq_none_iff {α β : Type} (f : α → Option β) (as : List α) :
    mapMopt f as = none ↔ ∃ a ∈ as, f a = none := by
  induction as with
  | nil => simp [mapMopt]
  | cons a as ih =>
    simp only [mapMopt]
    cases hf : f a with
    | none => simp [hf]
    | some b => simp [hf, ih]

theorem mapMopt_map {α β γ : Type} (f : β → Option γ) (g : α → β) (as : List α) :
    mapMopt f (as.map g) = mapMopt (fun a => f (g a)) as := by
  induction as with
  | nil => rfl
  | cons a as ih => simp only [List.map_cons, mapMopt, ih]

theorem mapMopt_id_of_mem {α : Type} (f : α → Option α) (as : List α)
    (h : ∀ a ∈ as, f a = some a) : mapMopt f as = some as := by
  induction as with
  | nil => rfl
  | cons a as ih =>
    simp only [mapMopt, h a (List.mem_cons_self a as)]
    rw [ih (fun a ha => h a (List.mem_cons_of_mem _ ha))]
    rfl

theorem optionInst_roundTrips {α : Type} (T : CoerceInst α) (hT : RoundTrips T) :
    RoundTrips (optionInst T) := by
  intro v x h
  by_cases hv : v = .null
  · subst hv
    have hx : x = none := by
      simpa [optionInst, optionFromInputValue] using h.symm
    subst hx
    exact ⟨rfl, fun hc => absurd rfl hc⟩
  · have h' : (T.fromInputValue v).map some = some x := by
      rw [← optionFrom_ne_null T v hv]; exact h
    cases hf : T.fromInputValue v with
    | none => rw [hf] at h'; cases h'
    | some y =>
      rw [hf] at h'
      have hx : x = some y := by
        cases h'; rfl
      subst hx
      obtain ⟨h1, h2⟩ := hT v y hf
      have hnn : T.toInputValue y ≠ .null := h2 hv
      constructor
      · show optionFromInputValue T (optionToInputValue T (some y)) = some (some y)
        show optionFromInputValue T (T.toInputValue y) = some (some y)
        rw [optionFrom_ne_null T _ hnn, h1]
        rfl
      · intro _
        show optionToInputValue T (some y) ≠ .null
        exact hnn

theorem vecInst_roundTrips {α : Type} (T : CoerceInst α) (hT : RoundTrips T) :
    RoundTrips (vecInst T) := by
  intro v xs h
  have hmem : ∀ x ∈ xs, T.fromInputValue (T.toInputValue x) = some x := by
    cases hl : v.isList with
    | true =>
      cases v <;> simp [InputValue.isList] at hl
      rename_i ls
      have h' : mapMopt (fun i => T.fromInputValue i.item) ls = some xs := by
        rw [← vecFrom_list_eq]; exact h
      have hall := (mapMopt_eq_some_iff _ ls xs).1 h'
      intro x hx
      obtain ⟨i, _, hi⟩ := forall2_exists_of_mem_right hall x hx
      exact (hT i.item x hi).1
    | false =>
      have h' : (T.fromInputValue v).map (fun x => [x]) = some xs := by
        rw [← vecFrom_not_list T v hl]; exact h
      cases hf : T.fromInputValue v with
      | none => rw [hf] at h'; cases h'
      | some e =>
        rw [hf] at h'
        have hx : xs = [e] := by cases h'; rfl
        subst hx
        intro x hx
        rw [List.mem_singleton] at hx
        subst hx
        exact (hT v x hf).1
  refine ⟨?_, fun _ => by show InputValue.mkList _ ≠ .null; simp [InputValue.mkList]⟩
  show vecFromInputValue T (vecToInputValue T xs) = some xs
  rw [vecToInputValue, InputValue.mkList, vecFrom_list_eq, mapMopt_map, mapMopt_map]
  exact mapMopt_id_of_mem _ xs hmem

/-- C1: for `Option<T>` and `Vec<T>`, serialising a coerced value with
`ToInputValue::to` yields the coerced form, and the coerce/serialise
round-trip stabilises after one coercion: whenever `from v` succeeds,
`to (from (to (from v))) = to (from v)` (the element type `T` satisfying
the same round-trip contract). -/
theorem containers_roundtrip_stabilizes {α : Type} (T : CoerceInst α) (hT : RoundTrips T)
    (v : InputValue) :
    (∀ x, (optionInst T).fromInputValue v = some x →
      ((optionInst T).fromInputValue ((optionInst T).toInputValue x)).map
          (optionInst T).toInputValue
        = some ((optionInst T).toInputValue x)) ∧
    (∀ xs, (vecInst T).fromInputValue v = some xs →
      ((vecInst T).fromInputValue ((vecInst T).toInputValue xs)).map
          (vecInst T).toInputValue
        = some ((vecInst T).toInputValue xs)) := by
  constructor
  · intro x h
    rw [(optionInst_roundTrips T hT v x h).1]
    rfl
  · intro xs h
    rw [(vecInst_roundTrips T hT v xs h).1]
    rfl

theorem containers_roundtrip_stabilizes_witness :
    RoundTrips intInst ∧
    (optionInst intInst).fromInputValue (.int 3) = some (some 3) ∧
    ((optionInst intInst).fromInputValue ((optionInst intInst).toInputValue (some 3))).map
        (optionInst intInst).toInputValue
      = some ((optionInst intInst).toInputValue (some 3)) ∧
    (vecInst intInst).fromInputValue (.int 3) = some [3] ∧
    ((vecInst intInst).fromInputValue ((vecInst intInst).toInputValue [(3 : Int)])).map
        (vecInst intInst).toInputValue
      = some ((vecInst intInst).toInputValue [(3 : Int)]) :=
  ⟨intInst_roundTrips, rfl,
   (containers_roundtrip_stabilizes intInst intInst_roundTrips (.int 3)).1 (some 3) rfl,
   rfl,
   (containers_roundtrip_stabilizes intInst intInst_roundTrips (.int 3)).2 [(3 : Int)] rfl⟩

/-- C8: coercing `Null` to `Option<T>` always yields `Some(None)`; coercing a
non-`Null` input delegates to `T`, wrapping success in `Some` and failing
exactly when `T` fails. -/
theorem option_from_null_and_delegate {α : Type} (T : CoerceInst α) :
    (optionInst T).fromInputValue .null = some none ∧
    ∀ v, v ≠ .null → (optionInst T).fromInputValue v = (T.fromInputValue v).map some :=
  ⟨rfl, fun v hv => optionFrom_ne_null T v hv⟩

theorem option_from_null_and_delegate_witness :
    (InputValue.string "hi" ≠ InputValue.null) ∧
    (optionInst intInst).fromInputValue (.string "hi")
      = (intInst.fromInputValue (.string "hi")).map some ∧
    (optionInst intInst).fromInputValue .null = some none :=
  ⟨nofun,
   (option_from_null_and_delegate intInst).2 (.string "hi") nofun,
   (option_from_null_and_delegate intInst).1⟩

/-- C9: coercing a `List` input to `Vec<T>` succeeds with the elementwise
coerced vector (same order and length) exactly when every element coerces,
fails when some element fails, and a non-`List` input is wrapped into a
singleton vector when it coerces to `T`, failing otherwise. -/
theorem vec_from_characterization {α : Type} (T : CoerceInst α) :
    (∀ ls xs, (vecInst T).fromInputValue (.list ls) = some xs ↔
        List.Forall₂ (fun i x => T.fromInputValue i.item = some x) ls xs) ∧
    (∀ ls, (vecInst T).fromInputValue (.list ls) = none ↔
        ∃ i ∈ ls, T.fromInputValue i.item = none) ∧
    (∀ v, v.isList = false →
        (vecInst T).fromInputValue v = (T.fromInputValue v).map (fun x => [x])) :=
  ⟨fun ls xs => by
      rw [show (vecInst T).fromInputValue (.list ls) = vecFromInputValue T (.list ls) from rfl,
        vecFrom_list_eq]
      exact mapMopt_eq_some_iff _ ls xs,
   fun ls => by
      rw [show (vecInst T).fromInputValue (.list ls) = vecFromInputValue T (.list ls) from rfl,
        vecFrom_list_eq]
      exact mapMopt_eq_none_iff _ ls,
   fun v hv => vecFrom_not_list T v hv⟩

theorem vec_from_characterization_witness :
    (InputValue.int 7).isList = false ∧
    (vecInst intInst).fromInputValue (.int 7)
      = (intInst.fromInputValue (.int 7)).map (fun x => [x]) ∧
    ((vecInst intInst).fromInputValue
        (.list [Spanning.unlocated (.int 1), Spanning.unlocated (.int 2)]) = some [1, 2] ↔
      List.Forall₂ (fun (i : Spanning InputValue) (x : Int) => intInst.fromInputValue i.item = some x)
        [Spanning.unlocated (.int 1), Spanning.unlocated (.int 2)] [1, 2]) :=
  ⟨rfl,
   (vec_from_characterization intInst).2.2 (.int 7) rfl,
   (vec_from_characterization intInst).1
     [Spanning.unlocated (.int 1), Spanning.unlocated (.int 2)] [1, 2]⟩

/-! ## Interfaces: concrete-type resolution (`src/macros/interface.rs`) -/

/-- One `instance_resolvers` arm of the interface DSL: the candidate GraphQL
type name together with the resolver expression evaluated over the shared
context. -/
structure ResolverArm (Ctx Inst : Type) where
  type_name : String
  resolver : Ctx → Option Inst

/-- The outcome of interface type resolution: a normal result, or the
internal fatal halt (a Rust panic) raised for schema wiring bugs — distinct
from any per-field query error. -/
inductive Resolved (α : Type) where
  | ok (a : α)
  | fatal (msg : String)

/-- The generated `concrete_type_name` (interface.rs lines 185-200): try each
arm in declared order; the first resolver yielding `Some` names the concrete
type; falling off the end halts fatally. -/
def concrete_type_name {Ctx Inst : Type} (outname : String) (context : Ctx) :
    List (ResolverArm Ctx Inst) → Resolved String
  | [] => .fatal ("Concrete type not handled by instance resolvers on " ++ outname)
  | arm :: rest =>
    match arm.resolver context with
    | some _ => .ok arm.type_name
    | none => concrete_type_name outname context rest

/-- The generated `resolve_into_type` (interface.rs lines 202-217): the arm
whose type name equals the requested name resolves, through the executor's
`resolve` applied to the arm's resolver output; no matching arm halts
fatally with the same message. -/
def resolve_into_type {Ctx Inst ExecResult : Type} (outname type_name : String)
    (context : Ctx) (resolve : Option Inst → ExecResult) :
    List (ResolverArm Ctx Inst) → Resolved ExecResult
  | [] => .fatal ("Concrete type not handled by instance resolvers on " ++ outname)
  | arm :: rest =>
    if arm.type_name = type_name then .ok (resolve (arm.resolver context))
    else resolve_into_type outname type_name context resolve rest

/-- C3: `concrete_type_name` evaluates the instance resolvers in declared
order and returns the GraphQL type name of the first arm whose resolver
yields `Some`; when no resolver yields `Some` it halts with the internal
fatal error, and `resolve_into_type` halts with the same fatal error when
the requested type name matches no arm. -/
theorem interface_instance_resolution {Ctx Inst ExecResult : Type}
    (outname type_name : String) (context : Ctx) (resolve : Option Inst → ExecResult)
    (arms : List (ResolverArm Ctx Inst)) :
    concrete_type_name outname context arms
      = (match arms.find? (fun arm => (arm.resolver context).isSome) with
         | some arm => .ok arm.type_name
         | none => .fatal ("Concrete type not handled by instance resolvers on " ++ outname)) ∧
    resolve_into_type outname type_name context resolve arms
      = (match arms.find? (fun arm => arm.type_name == type_name) with
         | some arm => .ok (resolve (arm.resolver context))
         | none => .fatal ("Concrete type not handled by instance resolvers on " ++ outname)) := by
  constructor
  · induction arms with
    | nil => rfl
    | cons arm rest ih =>
      simp only [concrete_type_name, List.find?_cons]
      cases hr : arm.resolver context with
      | some a => simp [hr]
      | none => simp [hr, ih]
  · induction arms with
    | nil => rfl
    | cons arm rest ih =>
      simp only [resolve_into_type, List.find?_cons]
      by_cases ht : arm.type_name = type_name
      · simp [ht]
      · have hb : (arm.type_name == type_name) = false := beq_eq_false_iff_ne.2 ht
        simp [ht, hb, ih]

/-! ## The KnownTypeNames rule (`src/validation/rules/known_type_names.rs`) -/

/-- The AST `Type` node (spec §3): a named type or a list / non-null wrapper. -/
inductive GqlType : Type where
  | named (n : String)
  | listType (t : GqlType)
  | nonNull (t : GqlType)
deriving DecidableEq, Repr

/-- `Type::innermost_name`: the named type underneath all wrappers. -/
def GqlType.innermost_name : GqlType → String
  | .named n => n
  | .listType t => t.innermost_name
  | .nonNull t => t.innermost_name

/-- A variable definition (spec §3). -/
structure VariableDefinition where
  var_type : Spanning GqlType
  default_value : Option (Spanning InputValue)

/-- A selection (spec §3). -/
inductive Selection : Type where
  | field (aliasName : Option String) (name : String)
      (arguments : List (Spanning String × Spanning InputValue))
      (selection_set : List Selection)
  | fragmentSpread (name : String)
  | inlineFragment (type_condition : Option (Spanning String))
      (selection_set : List Selection)

/-- The kind of an operation (spec §3). -/
inductive OperationKind : Type where
  | query
  | mutation
deriving DecidableEq, Repr

/-- An operation definition (spec §3). -/
structure Operation where
  kind : OperationKind
  name : Option String
  variable_definitions : List (Spanning String × VariableDefinition)
  selection_set : List Selection

/-- A fragment definition (spec §3). -/
structure Fragment where
  name : String
  type_condition : Spanning String
  selection_set : List Selection

/-- A document definition (spec §3). -/
inductive Definition : Type where
  | operation (op : Operation)
  | fragment (f : Fragment)

/-- A document is a list of definitions (spec §3). -/
abbrev Document := List Definition

/-- A validation rule error: message plus source positions (spec §6). -/
structure RuleError where
  message : String
  locations : List SourcePosition
deriving DecidableEq, Repr

/-- `error_message` (known_type_names.rs lines 37-39). -/
def error_message (type_name : String) : String :=
  "Unknown type \"" ++ type_name ++ "\""

/-- `validate_type` (known_type_names.rs lines 29-35): report an error at the
given location when the name is not registered in the schema. -/
def validate_type (schema : List String) (type_name : String)
    (location : SourcePosition) : List RuleError :=
  if schema.contains type_name then []
  else [⟨error_message type_name, [location]⟩]

mutual

/-- Errors the KnownTypeNames visitor reports inside one selection: the
`enter_inline_fragment` hook checks a present type condition, and the walk
descends into sub-selections (fields and fragment spreads have no hook). -/
def selectionErrors (schema : List String) : Selection → List RuleError
  | .field _ _ _ ss => selectionListErrors schema ss
  | .fragmentSpread _ => []
  | .inlineFragment tc ss =>
    (match tc with
     | some t => validate_type schema t.item t.start
     | none => []) ++ selectionListErrors schema ss

def selectionListErrors (schema : List String) : List Selection → List RuleError
  | [] => []
  | s :: rest => selectionErrors schema s ++ selectionListErrors schema rest

end

/-- Errors from the `enter_variable_definition` hook over the variable
definitions of an operation: each checks the innermost name of the declared
type at the type's start position. -/
def varDefErrors (schema : List String) :
    List (Spanning String × VariableDefinition) → List RuleError
  | [] => []
  | (_, vd) :: rest =>
    validate_type schema vd.var_type.item.innermost_name vd.var_type.start
      ++ varDefErrors schema rest

/-- Errors the rule reports on one definition: an operation contributes its
variable definitions then its selection set; a fragment definition
contributes its type condition (`enter_fragment_definition`) then its
selection set. -/
def definitionErrors (schema : List String) : Definition → List RuleError
  | .operation op =>
    varDefErrors schema op.variable_definitions
      ++ selectionListErrors schema op.selection_set
  | .fragment f =>
    validate_type schema f.type_condition.item f.type_condition.start
      ++ selectionListErrors schema f.selection_set

/-- The KnownTypeNames rule over a whole document, in visit order. -/
def known_type_names (schema : List String) : Document → List RuleError
  | [] => []
  | d :: rest => definitionErrors schema d ++ known_type_names schema rest

mutual

/-- Following the claim's wording: the `(position, name)` pairs of type names
referenced by inline-fragment type conditions inside one selection. -/
def selectionTypeRefs : Selection → List (SourcePosition × String)
  | .field _ _ _ ss => selectionListTypeRefs ss
  | .fragmentSpread _ => []
  | .inlineFragment tc ss =>
    (match tc with
     | some t => [(t.start, t.item)]
     | none => []) ++ selectionListTypeRefs ss

def selectionListTypeRefs : List Selection → List (SourcePosition × String)
  | [] => []
  | s :: rest => selectionTypeRefs s ++ selectionListTypeRefs rest

end

/-- Type names referenced by the (innermost) declared types of variable
definitions. -/
def varDefTypeRefs :
    List (Spanning String × VariableDefinition) → List (SourcePosition × String)
  | [] => []
  | (_, vd) :: rest =>
    (vd.var_type.start, vd.var_type.item.innermost_name) :: varDefTypeRefs rest

/-- All type names a document references in fragment-definition type
conditions, inline-fragment type conditions, and variable-definition
innermost types, with positions, in visit order. -/
def referencedTypeNames : Document → List (SourcePosition × String)
  | [] => []
  | .operation op :: rest =>
    varDefTypeRefs op.variable_definitions
      ++ selectionListTypeRefs op.selection_set ++ referencedTypeNames rest
  | .fragment f :: rest =>
    (f.type_condition.start, f.type_condition.item)
      :: (selectionListTypeRefs f.selection_set ++ referencedTypeNames rest)

/-- The error KnownTypeNames emits for one referenced name, when the name is
not registered. -/
def unknownTypeError (schema : List String) (pn : SourcePosition × String) :
    Option RuleError :=
  if schema.contains pn.2 then none
  else some ⟨error_message pn.2, [pn.1]⟩

theorem validate_type_eq (schema : List String) (n : String) (loc : SourcePosition) :
    validate_type schema n loc = (unknownTypeError schema (loc, n)).toList := by
  by_cases h : n ∈ schema <;> simp [validate_type, unknownTypeError, h]

mutual

theorem selectionErrors_eq (schema : List String) (s : Selection) :
    selectionErrors schema s = (selectionTypeRefs s).filterMap (unknownTypeError schema) := by
  cases s with
  | field a n args ss =>
    simp only [selectionErrors, selectionTypeRefs]
    exact selectionListErrors_eq schema ss
  | fragmentSpread n =>
    rfl
  | inlineFragment tc ss =>
    simp only [selectionErrors, selectionTypeRefs, List.filterMap_append,
      selectionListErrors_eq schema ss]
    cases tc with
    | none => rfl
    | some t =>
      simp [validate_type_eq, Option.toList, List.filterMap]
      cases unknownTypeError schema (t.start, t.item) <;> rfl

theorem selectionListErrors_eq (schema : List String) (ss : List Selection) :
    selectionListErrors schema ss
      = (selectionListTypeRefs ss).filterMap (unknownTypeError schema) := by
  cases ss with
  | nil => rfl
  | cons s rest =>
    simp only [selectionListErrors, selectionListTypeRefs, List.filterMap_append,
      selectionErrors_eq schema s, selectionListErrors_eq schema rest]

end

theorem varDefErrors_eq (schema : List String)
    (vds : List (Spanning String × VariableDefinition)) :
    varDefErrors schema vds = (varDefTypeRefs vds).filterMap (unknownTypeError schema) := by
  induction vds with
  | nil => rfl
  | cons vd rest ih =>
    obtain ⟨sn, vd⟩ := vd
    simp only [varDefErrors, varDefTypeRefs, List.filterMap_cons, validate_type_eq, ih]
    cases unknownTypeError schema (vd.var_type.start, vd.var_type.item.innermost_name) <;> rfl

/-- Modelled from the spec: the type names registered in the validation-test
schema; it contains the built-in scalars and the test domain types, and none
of `JumbledUpLetters`, `Badger` or `Peettt`. -/
def testSchemaTypeNames : List String :=
  ["Int", "Float", "String", "Boolean", "ID",
   "Being", "Pet", "Canine", "Dog", "Cat", "Human", "Alien",
   "DogCommand", "FurColor", "ComplexInput", "ComplicatedArgs", "QueryRoot"]

/-- Modelled from the spec: the parser's output on the scenario-6 fixture
(test `unknown_type_names_are_invalid`), with the zero-based
`(index, line, column)` spans the parser assigns to each type-name token in
that source text. -/
def scenario6Doc : Document :=
  [.operation
    { kind := .query,
      name := some "Foo",
      variable_definitions :=
        [(⟨⟨21, 1, 20⟩, ⟨24, 1, 23⟩, "var"⟩,
          { var_type := ⟨⟨27, 1, 26⟩, ⟨43, 1, 42⟩, .named "JumbledUpLetters"⟩,
            default_value := none })],
      selection_set :=
        [.field none "user"
          [(⟨⟨64, 2, 17⟩, ⟨66, 2, 19⟩, "id"⟩, ⟨⟨68, 2, 21⟩, ⟨69, 2, 22⟩, .int 4⟩)]
          [.field none "name" [] [],
           .field none "pets" []
             [.inlineFragment (some ⟨⟨120, 4, 28⟩, ⟨126, 4, 34⟩, "Badger"⟩)
                [.field none "name" [] []],
              .fragmentSpread "PetFields"]]]},
   .fragment
    { name := "PetFields",
      type_condition := ⟨⟨210, 7, 32⟩, ⟨216, 7, 38⟩, "Peettt"⟩,
      selection_set := [.field none "name" [] []] }]

/-- C2: KnownTypeNames reports `Unknown type "X"` at the source position of
the type name for exactly those names referenced in fragment-definition type
conditions, inline-fragment type conditions, or variable-definition
innermost types that are not registered in the schema (registered names
produce no error); on the scenario-6 fixture it produces exactly the three
errors for `JumbledUpLetters`, `Badger` and `Peettt` at their spans. -/
theorem known_type_names_correct :
    (∀ (schema : List String) (doc : Document),
      known_type_names schema doc
        = (referencedTypeNames doc).filterMap (unknownTypeError schema)) ∧
    known_type_names testSchemaTypeNames scenario6Doc
      = [⟨"Unknown type \"JumbledUpLetters\"", [⟨27, 1, 26⟩]⟩,
         ⟨"Unknown type \"Badger\"", [⟨120, 4, 28⟩]⟩,
         ⟨"Unknown type \"Peettt\"", [⟨210, 7, 32⟩]⟩] := by
  constructor
  · intro schema doc
    induction doc with
    | nil => rfl
    | cons d rest ih =>
      cases d with
      | operation op =>
        simp only [known_type_names, referencedTypeNames, List.filterMap_append,
          definitionErrors, varDefErrors_eq, selectionListErrors_eq, ih]
      | fragment f =>
        simp only [known_type_names, referencedTypeNames, List.filterMap_cons,
          List.filterMap_append, definitionErrors, validate_type_eq,
          selectionListErrors_eq, ih]
        cases unknownTypeError schema (f.type_condition.start, f.type_condition.item) <;> rfl
  · rfl

/-! ## Enum coercion fixtures (`src/executor_tests/enums.rs`) -/

/-- The `Color` enum of the executor tests (enums.rs line 11). -/
inductive Color : Type where
  | Red
  | Green
  | Blue
deriving DecidableEq, Repr

/-- The Rust `Debug` rendering of a `Color` variant, as interpolated by the
`to_string` field body (enums.rs line 22). -/
def colorDebug : Color → String
  | .Red => "Red"
  | .Green => "Green"
  | .Blue => "Blue"

/-- The member labels declared for `Color` (enums.rs lines 14-18). -/
def colorMembers : List (String × Color) :=
  [("RED", .Red), ("GREEN", .Green), ("BLUE", .Blue)]

/-- Modelled from the spec: the enum input coercion the missing enum DSL
generates — an `Enum` token or a `String` whose value matches a member label
coerces; a mismatched label fails with the enum-value message; any other
input kind fails with the wrong-kind message (spec §4.5 step 2, §6). -/
def colorUnify : InputValue → Except String Color
  | .enum s =>
    match colorMembers.lookup s with
    | some c => .ok c
    | none => .error "Invalid value for enum \"Color\"."
  | .string s =>
    match colorMembers.lookup s with
    | some c => .ok c
    | none => .error "Invalid value for enum \"Color\"."
  | _ => .error "Expected \"Color\", found not a string or enum."

/-- The output `Value` tree (spec §3); object keys keep insertion order. -/
inductive Value : Type where
  | null
  | int (n : Int)
  | float (bits : Nat)
  | string (s : String)
  | boolean (b : Bool)
  | list (vs : List Value)
  | object (fields : List (String × Value))

/-- A segment of a field path: a response key or a list index (spec §4.5). -/
inductive PathSegment : Type where
  | fieldName (s : String)
  | index (i : Nat)

/-- A per-field execution error (spec §7). -/
structure ExecutionError where
  message : String
  path : List PathSegment
  location : SourcePosition

/-- The top-level error variants of `execute` (spec §6). -/
inductive GraphQLError : Type where
  | parseError (err : Spanning String)
  | validationError (errs : List RuleError)
  | noOperationProvided
  | multipleOperationsProvided
  | unknownOperationName

/-- The shape shared by the enum fixture queries: the operation's variable
definitions and the value passed to `toString`'s `color` argument. -/
structure EnumQuery where
  variable_definitions : List (Spanning String × VariableDefinition)
  argValue : Spanning InputValue

/-- Modelled from the spec: the missing arguments-of-correct-type check for
a literal in a `Color!` position — a variable is checked separately, an
`Enum` member token is valid, and everything else (in particular a `String`
literal) is invalid (spec §4.4, scenario 3). -/
def colorLiteralValid : InputValue → Bool
  | .var _ => true
  | .enum s => (colorMembers.lookup s).isSome
  | _ => false

/-- Modelled from the spec: the missing validator pass on the enum fixture
queries — the `color` argument must be a valid `Color!` literal, otherwise a
rule error is reported at the value's position (spec §4.4, §6). -/
def validateEnumQuery (q : EnumQuery) : List RuleError :=
  if colorLiteralValid q.argValue.item then []
  else
    [⟨"Invalid value for argument \"color\", expected type \"Color!\"",
      [q.argValue.start]⟩]

/-- Modelled from the spec: the missing variable-coercion step (spec §4.5
step 2) on the fixture's `Color!` variables — the provided value (the
fixtures declare no defaults) is unified against the enum; a failure is
reported as `Variable "$name" got invalid value. …` at the definition's
position, and a missing value for the non-null type fails. -/
def coerceEnumVariables :
    List (Spanning String × VariableDefinition) → List (String × InputValue) →
      Except (List RuleError) (List (String × Color))
  | [], _ => .ok []
  | (sn, _vd) :: rest, vars =>
    match vars.lookup sn.item with
    | none =>
      .error
        [⟨"Variable \"$" ++ sn.item ++ "\" of required type \"Color!\" was not provided.",
          [sn.start]⟩]
    | some v =>
      match colorUnify v with
      | .error msg =>
        .error [⟨"Variable \"$" ++ sn.item ++ "\" got invalid value. " ++ msg, [sn.start]⟩]
      | .ok c =>
        match coerceEnumVariables rest vars with
        | .error errs => .error errs
        | .ok cs => .ok ((sn.item, c) :: cs)

/-- Modelled from the spec: argument resolution at execution time — a
variable reads the coerced variable map, a literal coerces directly
(spec §4.5 step 4). -/
def resolveColorArg (v : InputValue) (cvars : List (String × Color)) : Option Color :=
  match v with
  | .var n => cvars.lookup n
  | v =>
    match colorUnify v with
    | .ok c => some c
    | .error _ => none

/-- Modelled from the spec: the missing `execute` pipeline on the enum
fixture queries — validate, coerce variables, then resolve the single
`toString` field, whose body renders `Color::` followed by the variant's
debug name (enums.rs lines 20-23); the fixture resolver never records
execution errors.  The final fallback returns empty data; it is unreachable
on the fixture queries. -/
def runEnumQuery (q : EnumQuery) (vars : List (String × InputValue)) :
    Except GraphQLError (Value × List ExecutionError) :=
  match validateEnumQuery q with
  | [] =>
    match coerceEnumVariables q.variable_definitions vars with
    | .error errs => .error (.validationError errs)
    | .ok cvars =>
      match resolveColorArg q.argValue.item cvars with
      | some c => .ok (.object [("toString", .string ("Color::" ++ colorDebug c))], [])
      | none => .ok (.null, [])
  | errs => .error (.validationError errs)

/-- Modelled from the spec: the parse of `{ toString(color: RED) }` — the
enum literal starts at byte 18 of the source. -/
def queryEnumLiteral : EnumQuery :=
  { variable_definitions := [],
    argValue := ⟨⟨18, 0, 18⟩, ⟨21, 0, 21⟩, .enum "RED"⟩ }

/-- Modelled from the spec: the parse of `{ toString(color: "RED") }` — the
string literal starts at byte 18 of the source. -/
def queryStringLiteral : EnumQuery :=
  { variable_definitions := [],
    argValue := ⟨⟨18, 0, 18⟩, ⟨23, 0, 23⟩, .string "RED"⟩ }

/-- Modelled from the spec: the parse of
`query q($color: Color!) { toString(color: $color) }` — the variable
definition starts at byte 8 and the argument value is the variable. -/
def queryColorVariable : EnumQuery :=
  { variable_definitions :=
      [(⟨⟨8, 0, 8⟩, ⟨14, 0, 14⟩, "color"⟩,
        { var_type := ⟨⟨16, 0, 16⟩, ⟨22, 0, 22⟩, .nonNull (.named "Color")⟩,
          default_value := none })],
    argValue := ⟨⟨42, 0, 42⟩, ⟨48, 0, 48⟩, .var "color"⟩ }

/-- C4: executing `{ toString(color: "RED") }` returns the validation-error
variant with exactly one rule error `Invalid value for argument "color",
expected type "Color!"` at (18,0,18), and nothing is executed. -/
theorem string_literal_rejected_for_enum_arg :
    runEnumQuery queryStringLiteral []
      = .error (.validationError
          [⟨"Invalid value for argument \"color\", expected type \"Color!\"",
            [⟨18, 0, 18⟩]⟩]) := rfl

/-- C5: for `query q($color: Color!) { toString(color: $color) }`, the
string `"BLURPLE"` yields exactly the unknown-enum-value message and the int
`123` yields exactly the wrong-kind message, both single located errors at
(8,0,8) in the validation-error variant, with no result value. -/
theorem enum_variable_coercion_errors :
    runEnumQuery queryColorVariable [("color", .string "BLURPLE")]
      = .error (.validationError
          [⟨"Variable \"$color\" got invalid value. Invalid value for enum \"Color\".",
            [⟨8, 0, 8⟩]⟩]) ∧
    runEnumQuery queryColorVariable [("color", .int 123)]
      = .error (.validationError
          [⟨"Variable \"$color\" got invalid value. Expected \"Color\", found not a string or enum.",
            [⟨8, 0, 8⟩]⟩]) :=
  ⟨rfl, rfl⟩

/-- C6: the enum literal `RED` with an empty variable map, and the variable
query with `{"color": "RED"}`, both execute with zero errors and produce
`{ "toString": "Color::Red" }`. -/
theorem enum_literal_and_string_variable_accepted :
    runEnumQuery queryEnumLiteral []
      = .ok (.object [("toString", .string "Color::Red")], []) ∧
    runEnumQuery queryColorVariable [("color", .string "RED")]
      = .ok (.object [("toString", .string "Color::Red")], []) :=
  ⟨rfl, rfl⟩

/-! ## The iron HTTP handler (`src/integrations/iron_handlers.rs`) -/

/-- The HTTP methods of the iron `method` enum used for dispatch. -/
inductive Method : Type where
  | options
  | get
  | post
  | put
  | delete
  | head
  | trace
  | connect
  | patch
deriving DecidableEq, Repr

/-- The HTTP statuses the handler produces. -/
inductive Status : Type where
  | ok
  | badRequest
  | methodNotAllowed
deriving DecidableEq, Repr

/-- A model of `rustc_serialize` JSON values (the `f64` payload again kept
as a bit pattern). -/
inductive Json : Type where
  | null
  | int (n : Int)
  | float (bits : Nat)
  | str (s : String)
  | bool (b : Bool)
  | arr (xs : List Json)
  | obj (fields : List (String × Json))

/-- An incoming request, reduced to what the handler reads: the method, the
URL's decoded query pairs, and the body parsed as JSON (`none` when the body
is not decodable JSON). -/
structure Request where
  method : Method
  queryPairs : List (String × String)
  body : Option Json

/-- An outgoing response: status, content type, and JSON body (plain-text
bodies of early bad-request exits are out of scope and kept as `none`). -/
structure Response where
  status : Status
  contentType : Option String
  body : Option Json

mutual

/-- `Value` rendered as JSON (spec §6): null, numbers, strings, booleans
map directly; lists and objects map recursively, objects preserving key
order. -/
def Value.toJson : Value → Json
  | .null => .null
  | .int n => .int n
  | .float b => .float b
  | .string s => .str s
  | .boolean b => .bool b
  | .list vs => .arr (Value.toJsonList vs)
  | .object fs => .obj (Value.toJsonObj fs)

def Value.toJsonList : List Value → List Json
  | [] => []
  | v :: vs => v.toJson :: Value.toJsonList vs

def Value.toJsonObj : List (String × Value) → List (String × Json)
  | [] => []
  | (k, v) :: fs => (k, v.toJson) :: Value.toJsonObj fs

end

mutual

/-- Modelled from the spec: the missing `InputValue::from_json` conversion
used by POST bodies — JSON values map onto the corresponding `InputValue`
variants, with unlocated spans on list elements and object fields. -/
def InputValue.from_json : Json → InputValue
  | .null => .null
  | .int n => .int n
  | .float b => .float b
  | .str s => .string s
  | .bool b => .boolean b
  | .arr xs => .list (InputValue.from_jsonList xs)
  | .obj fs => .object (InputValue.from_jsonObj fs)

def InputValue.from_jsonList : List Json → List (Spanning InputValue)
  | [] => []
  | x :: xs => Spanning.unlocated (InputValue.from_json x) :: InputValue.from_jsonList xs

def InputValue.from_jsonObj : List (String × Json) → List (Spanning String × Spanning InputValue)
  | [] => []
  | (k, v) :: fs =>
    (Spanning.unlocated k, Spanning.unlocated (InputValue.from_json v))
      :: InputValue.from_jsonObj fs

end

/-- Modelled from the spec: an `ErrorObject` list for the `errors` key —
`message` plus `locations` as line/column pairs (spec §6). -/
def executionErrorsToJson (errs : List ExecutionError) : Json :=
  .arr (errs.map (fun e =>
    .obj [("message", .str e.message),
          ("locations",
            .arr [.obj [("line", .int e.location.line), ("column", .int e.location.col)]])]))

/-- Modelled from the spec: the JSON rendering of the located rule errors of
a top-level error (spec §6). -/
def ruleErrorsToJson (errs : List RuleError) : Json :=
  .arr (errs.map (fun e =>
    .obj [("message", .str e.message),
          ("locations",
            .arr (e.locations.map (fun p =>
              .obj [("line", .int p.line), ("column", .int p.col)])))]))

/-- Modelled from the spec: the JSON rendering of a top-level
`GraphQLError` (spec §6); operation-selection errors render as a bare
message string. -/
def graphQLErrorToJson : GraphQLError → Json
  | .parseError err => ruleErrorsToJson [⟨err.item, [err.start]⟩]
  | .validationError errs => ruleErrorsToJson errs
  | .noOperationProvided => .str "Must provide an operation"
  | .multipleOperationsProvided => .str "Must provide operation name if query contains multiple operations"
  | .unknownOperationName => .str "Unknown operation name"

/-- The signature of the core `execute` entry point as the handler uses it
(spec §6), abstracted over the context type. -/
abbrev ExecuteFn (Ctx : Type) :=
  String → List (String × InputValue) → Ctx → Except GraphQLError (Value × List ExecutionError)

/-- `GraphQLHandler::execute` (iron_handlers.rs lines 106-133): build the
context from the request, run the query, and respond: on success, a JSON
object with key `data` and — only when the error list is non-empty — key
`errors`, under status OK and content type `application/json`; on failure,
the rendered error under BadRequest. -/
def handlerExecute {Ctx : Type} (context_factory : Request → Ctx) (execute : ExecuteFn Ctx)
    (req : Request) (query : String) (vars : List (String × InputValue)) : Response :=
  let context := context_factory req
  match execute query vars context with
  | .ok (result, errors) =>
    let m := [("data", result.toJson)]
    let m := if errors.isEmpty then m else m ++ [("errors", executionErrorsToJson errors)]
    ⟨.ok, some "application/json", some (.obj m)⟩
  | .error err => ⟨.badRequest, some "application/json", some (graphQLErrorToJson err)⟩

/-- `GraphQLHandler::handle_get` (iron_handlers.rs lines 61-76): take the
last `query` URL parameter (responding BadRequest when absent) and execute
it with an empty variable map. -/
def handle_get {Ctx : Type} (context_factory : Request → Ctx) (execute : ExecuteFn Ctx)
    (req : Request) : Response :=
  let query :=
    req.queryPairs.foldl (fun acc kv => if kv.1 = "query" then some kv.2 else acc) none
  match query with
  | none => ⟨.badRequest, none, none⟩
  | some q => handlerExecute context_factory execute req q []

/-- `GraphQLHandler::handle_post` (iron_handlers.rs lines 78-104): the body
must decode to a JSON object; its `query` member must be a string
(responding BadRequest otherwise) and its `variables` member, when an
object, becomes the variable map. -/
def handle_post {Ctx : Type} (context_factory : Request → Ctx) (execute : ExecuteFn Ctx)
    (req : Request) : Response :=
  match req.body with
  | none => ⟨.badRequest, none, none⟩
  | some (.obj fields) =>
    let query := fields.foldl
      (fun acc kv =>
        if kv.1 = "query" then
          match kv.2 with
          | .str s => some s
          | _ => none
        else acc) none
    let vars := fields.foldl
      (fun acc kv =>
        if kv.1 = "variables" then
          match InputValue.from_json kv.2 with
          | .object o => o.map (fun p => (p.1.item, p.2.item))
          | _ => []
        else acc) []
    match query with
    | none => ⟨.badRequest, none, none⟩
    | some q => handlerExecute context_factory execute req q vars
  | some _ => ⟨.badRequest, none, none⟩

/-- `Handler::handle` (iron_handlers.rs lines 156-162): dispatch GET and
POST; everything else is MethodNotAllowed. -/
def handle {Ctx : Type} (context_factory : Request → Ctx) (execute : ExecuteFn Ctx)
    (req : Request) : Response :=
  match req.method with
  | .get => handle_get context_factory execute req
  | .post => handle_post context_factory execute req
  | _ => ⟨.methodNotAllowed, none, none⟩

/-- The keys of a response's top-level JSON object. -/
def responseKeys (r : Response) : List String :=
  match r.body with
  | some (.obj m) => m.map Prod.fst
  | _ => []

/-- Modelled from the spec: the Star Wars schema execution on the fixture
query — `query=\x7bhero\x7bname\x7d\x7d` resolves the hero to R2-D2 with no
execution errors (spec scenario 7).  Other query texts are outside this
model and return a placeholder parse error. -/
def starWarsExecute : ExecuteFn Unit := fun query _vars _ctx =>
  if query = "\x7bhero\x7bname\x7d\x7d" then
    .ok (.object [("hero", .object [("name", .string "R2-D2")])], [])
  else
    .error (.parseError ⟨⟨0, 0, 0⟩, ⟨0, 0, 0⟩, "unmodelled query"⟩)

/-- Modelled from the spec: the test context factory, building the database
context for each request (the database carries no structure needed here). -/
def starWarsContextFactory : Request → Unit := fun _ => ()

/-- The GET request of the `test_simple_get` fixture. -/
def heroGetRequest : Request :=
  { method := .get,
    queryPairs := [("query", "\x7bhero\x7bname\x7d\x7d")],
    body := none }

/-- C7: the GET request with URL parameter `query` set to the hero query
returns status OK with content type `application/json` and body
`\x7b"data":\x7b"hero":\x7b"name":"R2-D2"\x7d\x7d\x7d`; in general the
success response's top-level object has key `data`, with key `errors`
present exactly when the execution error list is non-empty. -/
theorem handler_get_hero_r2d2 :
    handle starWarsContextFactory starWarsExecute heroGetRequest
      = ⟨.ok, some "application/json",
         some (.obj [("data", .obj [("hero", .obj [("name", .str "R2-D2")])])])⟩ ∧
    (∀ (Ctx : Type) (cf : Request → Ctx) (execute : ExecuteFn Ctx) (req : Request)
       (q : String) (vars : List (String × InputValue)) (v : Value)
       (errs : List ExecutionError),
      execute q vars (cf req) = .ok (v, errs) →
      responseKeys (handlerExecute cf execute req q vars)
        = if errs.isEmpty then ["data"] else ["data", "errors"]) := by
  refine ⟨rfl, ?_⟩
  intro Ctx cf execute req q vars v errs hex
  simp only [handlerExecute, responseKeys, hex]
  cases errs <;> simp

theorem handler_get_hero_r2d2_witness :
    starWarsExecute "\x7bhero\x7bname\x7d\x7d" [] (starWarsContextFactory heroGetRequest)
        = .ok (.object [("hero", .object [("name", .string "R2-D2")])], []) ∧
    responseKeys (handlerExecute starWarsContextFactory starWarsExecute heroGetRequest
        "\x7bhero\x7bname\x7d\x7d" [])
      = (if ([] : List ExecutionError).isEmpty then ["data"] else ["data", "errors"]) :=
  ⟨rfl,
   handler_get_hero_r2d2.2 Unit starWarsContextFactory starWarsExecute heroGetRequest
     "\x7bhero\x7bname\x7d\x7d" [] (.object [("hero", .object [("name", .string "R2-D2")])])
     [] rfl⟩

/-- C10: a request whose method is neither GET nor POST gets the
MethodNotAllowed response with no content type and no body; the result does
not depend on the context factory or on the execute entry point, so neither
is invoked. -/
theorem non_get_post_is_method_not_allowed
    {Ctx Ctx' : Type} (cf : Request → Ctx) (cf' : Request → Ctx')
    (execute : ExecuteFn Ctx) (execute' : ExecuteFn Ctx') (req : Request)
    (hget : req.method ≠ .get) (hpost : req.method ≠ .post) :
    handle cf execute req = ⟨.methodNotAllowed, none, none⟩ ∧
    handle cf execute req = handle cf' execute' req := by
  obtain ⟨m, qp, b⟩ := req
  cases m <;> simp_all [handle]

theorem non_get_post_is_method_not_allowed_witness :
    ((⟨.options, [], none⟩ : Request).method ≠ Method.get) ∧
    ((⟨.options, [], none⟩ : Request).method ≠ Method.post) ∧
    handle starWarsContextFactory starWarsExecute ⟨.options, [], none⟩
      = ⟨.methodNotAllowed, none, none⟩ :=
  ⟨nofun, nofun,
   (non_get_post_is_method_not_allowed starWarsContextFactory starWarsContextFactory
     starWarsExecute starWarsExecute ⟨.options, [], none⟩ nofun nofun).1⟩
